import Mathlib

/-!
Verification of the breakout-strategy backtest engine of
`correct_timing_backtest.py` (class `CorrectTimingStrategy`) and of its
indicator pipeline.  Prices, equity and position sizes are embedded as
rationals; pandas `NaN` cells (indicators that are not yet defined) are
embedded as `Option` values, with `none` playing the role of `NaN`.
Only the state that the trading logic reads or writes is modelled:
position, average entry price, equity, trade counter, the pending-signal
slot and the trade log.  The purely presentational `daily_log` is not
modelled.
-/

/-- Python's `abs` on rationals. -/
def pyabs (x : ℚ) : ℚ := if x < 0 then -x else x

/-- Strategy and trading parameters set in `CorrectTimingStrategy.__init__`. -/
structure Params where
  lookback_period : ℕ
  range_mult : ℚ
  stop_loss_mult : ℚ
  atr_period : ℕ
  initial_capital : ℚ
  commission_rate : ℚ
  qty_value : ℚ
deriving DecidableEq

/-- The parameter values hard-coded in `CorrectTimingStrategy.__init__`:
lookback 20, range multiplier 0.5, stop-loss ATR multiplier 2.5, ATR period
14, initial capital 100000, commission rate 0.001, 99 percent of equity. -/
def defaultParams : Params :=
  { lookback_period := 20
    range_mult := 1/2
    stop_loss_mult := 5/2
    atr_period := 14
    initial_capital := 100000
    commission_rate := 1/1000
    qty_value := 99 }

/-- The `type` field of a pending signal, as produced by `detect_signals`. -/
inductive SignalType
  | LONG
  | SHORT
  | REVERSE_TO_LONG
  | REVERSE_TO_SHORT
deriving DecidableEq

/-- A pending signal dictionary: `{'type': ..., 'reason': ...}`. -/
structure Signal where
  type : SignalType
  reason : String
deriving DecidableEq

/-- The `action` argument of `log_trade`: `"LONG"`, `"SHORT"` or `"CLOSE"`. -/
inductive TradeAction
  | LONG
  | SHORT
  | CLOSE
deriving DecidableEq

/-- The `action` string stored in a trade-log record: `"LONG"`, `"SHORT"`,
`"CLOSE_LONG"` or `"CLOSE_SHORT"`. -/
inductive ActionLabel
  | LONG
  | SHORT
  | CLOSE_LONG
  | CLOSE_SHORT
deriving DecidableEq

/-- One entry of `self.trade_log`, as appended by `log_trade`. -/
structure TradeRecord where
  trade_id : ℕ
  bar_index : ℕ
  date : String
  action : ActionLabel
  execution_price : ℚ
  position_size : ℚ
  pnl : ℚ
  commission : ℚ
  net_pnl : ℚ
  equity_after : ℚ
  reason : String
deriving DecidableEq

/-- A record is an entry (as opposed to a close). -/
def isEntry (rec : TradeRecord) : Bool :=
  match rec.action with
  | ActionLabel.LONG => true
  | ActionLabel.SHORT => true
  | _ => false

/-- The mutable state of `CorrectTimingStrategy` that the trading logic
reads and writes. -/
structure EngineState where
  position_size : ℚ
  position_avg_price : ℚ
  equity : ℚ
  trade_id : ℕ
  pending_signal : Option Signal
  trade_log : List TradeRecord
deriving DecidableEq

/-- The state after `__init__`: flat, no pending signal, empty log. -/
def initState (P : Params) : EngineState :=
  { position_size := 0
    position_avg_price := 0
    equity := P.initial_capital
    trade_id := 0
    pending_signal := none
    trade_log := [] }

/-- `calculate_position_size_value`: percent-of-equity sizing. -/
def calculate_position_size_value (P : Params) (st : EngineState) (price : ℚ) : ℚ :=
  st.equity * (P.qty_value / 100) / price

/-- The record appended by the `"CLOSE"` branch of `log_trade`: realized
PnL per direction, exit commission on the exit notional, equity updated by
the net PnL. -/
def closeRecord (P : Params) (st : EngineState) (price : ℚ) (date : String)
    (reason : String) (bar_index : ℕ) : TradeRecord :=
  let pnl :=
    if 0 < st.position_size then (price - st.position_avg_price) * st.position_size
    else (st.position_avg_price - price) * pyabs st.position_size
  let commission := pyabs st.position_size * price * P.commission_rate
  { trade_id := st.trade_id + 1
    bar_index := bar_index
    date := date
    action := if 0 < st.position_size then ActionLabel.CLOSE_LONG else ActionLabel.CLOSE_SHORT
    execution_price := price
    position_size := pyabs st.position_size
    pnl := pnl
    commission := commission
    net_pnl := pnl - commission
    equity_after := st.equity + (pnl - commission)
    reason := reason }

/-- The record appended by the entry branch of `log_trade`: percent-of-equity
size, entry commission deducted from equity, zero realized PnL. -/
def entryRecord (P : Params) (st : EngineState) (action : TradeAction) (price : ℚ)
    (date : String) (reason : String) (bar_index : ℕ) : TradeRecord :=
  let new_position_size := calculate_position_size_value P st price
  let commission := new_position_size * price * P.commission_rate
  { trade_id := st.trade_id + 1
    bar_index := bar_index
    date := date
    action := if action = TradeAction.LONG then ActionLabel.LONG else ActionLabel.SHORT
    execution_price := price
    position_size := new_position_size
    pnl := 0
    commission := commission
    net_pnl := -commission
    equity_after := st.equity - commission
    reason := reason }

/-- `log_trade`: executes a close or an entry at `price`, updates position,
average price, equity and the trade log. -/
def log_trade (P : Params) (st : EngineState) (action : TradeAction) (price : ℚ)
    (date : String) (reason : String) (bar_index : ℕ) : EngineState :=
  if action = TradeAction.CLOSE then
    let rec1 := closeRecord P st price date reason bar_index
    { st with
      trade_id := st.trade_id + 1
      equity := rec1.equity_after
      position_size := 0
      position_avg_price := 0
      trade_log := st.trade_log ++ [rec1] }
  else
    let rec1 := entryRecord P st action price date reason bar_index
    { st with
      trade_id := st.trade_id + 1
      equity := rec1.equity_after
      position_size :=
        if action = TradeAction.LONG then rec1.position_size else -rec1.position_size
      position_avg_price := price
      trade_log := st.trade_log ++ [rec1] }

/-- One row of the prepared dataframe handed to the backtest loop: raw OHLC
together with the precomputed indicator columns (`none` embeds `NaN`). -/
structure BarRow where
  date : String
  «open» : ℚ
  high : ℚ
  low : ℚ
  close : ℚ
  atr : Option ℚ
  upper_boundary : Option ℚ
  lower_boundary : Option ℚ
  go_long : Bool
  go_short : Bool
deriving DecidableEq

/-- `check_stop_loss`: intrabar stop-loss check against the current bar's
high/low; on a breach the position is closed immediately at the computed
stop price.  Returns the new state and whether a stop fired. -/
def check_stop_loss (P : Params) (st : EngineState) (row : BarRow)
    (bar_index : ℕ) : EngineState × Bool :=
  if st.position_size = 0 then (st, false)
  else
    match row.atr with
    | none => (st, false)
    | some atrv =>
      if 0 < st.position_size then
        let stop_price := st.position_avg_price - atrv * P.stop_loss_mult
        if row.low ≤ stop_price then
          (log_trade P st TradeAction.CLOSE stop_price row.date "SL Long" bar_index, true)
        else (st, false)
      else
        let stop_price := st.position_avg_price + atrv * P.stop_loss_mult
        if stop_price ≤ row.high then
          (log_trade P st TradeAction.CLOSE stop_price row.date "SL Short" bar_index, true)
        else (st, false)

/-- `detect_signals`: boundary-breach detection on the current bar; returns
the pending-signal intent for next-bar execution, mutating nothing. -/
def detect_signals (position_size : ℚ) (row : BarRow) : Option Signal :=
  match row.upper_boundary, row.lower_boundary with
  | some _, some _ =>
    if row.go_long then
      if position_size < 0 then some ⟨SignalType.REVERSE_TO_LONG, "Reverse to Long"⟩
      else if position_size ≤ 0 then some ⟨SignalType.LONG, "Long Entry"⟩
      else none
    else if row.go_short then
      if 0 < position_size then some ⟨SignalType.REVERSE_TO_SHORT, "Reverse to Short"⟩
      else if 0 ≤ position_size then some ⟨SignalType.SHORT, "Short Entry"⟩
      else none
    else none
  | _, _ => none

/-- `execute_pending_signal`: consumes the pending signal (clearing the
slot) and executes it at `open_price`. -/
def execute_pending_signal (P : Params) (st : EngineState) (open_price : ℚ)
    (date : String) (bar_index : ℕ) : EngineState :=
  match st.pending_signal with
  | none => st
  | some signal =>
    let st1 : EngineState := { st with pending_signal := none }
    match signal.type with
    | SignalType.REVERSE_TO_LONG =>
      let st2 :=
        if st1.position_size < 0 then
          log_trade P st1 TradeAction.CLOSE open_price date "Reverse to Long" bar_index
        else st1
      log_trade P st2 TradeAction.LONG open_price date "Long Entry" bar_index
    | SignalType.REVERSE_TO_SHORT =>
      let st2 :=
        if 0 < st1.position_size then
          log_trade P st1 TradeAction.CLOSE open_price date "Reverse to Short" bar_index
        else st1
      log_trade P st2 TradeAction.SHORT open_price date "Short Entry" bar_index
    | SignalType.LONG =>
      log_trade P st1 TradeAction.LONG open_price date "Long Entry" bar_index
    | SignalType.SHORT =>
      log_trade P st1 TradeAction.SHORT open_price date "Short Entry" bar_index

/-- One iteration of the loop in `run_correct_timing_backtest`: execute the
pending signal at the bar's open, then the intrabar stop-loss check, then
signal detection for next-bar execution. -/
def processBar (P : Params) (st : EngineState) (row : BarRow) (bar_index : ℕ) :
    EngineState :=
  let st1 := execute_pending_signal P st row.«open» row.date bar_index
  let st2 := (check_stop_loss P st1 row bar_index).1
  let signal := detect_signals st2.position_size row
  if signal.isSome then { st2 with pending_signal := signal } else st2

/-- The bar-by-bar loop of `run_correct_timing_backtest`, carrying the
enumeration index. -/
def runLoop (P : Params) : EngineState → ℕ → List BarRow → EngineState
  | st, _, [] => st
  | st, i, row :: rest => runLoop P (processBar P st row i) (i + 1) rest

/-- `run_correct_timing_backtest`: the loop, then execution of any still
pending signal at the final bar's close, then a forced close of any open
position at the final bar's close. -/
def run_correct_timing_backtest (P : Params) (bars : List BarRow) : EngineState :=
  let stL := runLoop P (initState P) 0 bars
  match bars.getLast? with
  | none => stL
  | some final_row =>
    let st1 :=
      if stL.pending_signal.isSome then
        execute_pending_signal P stL final_row.close final_row.date (bars.length - 1)
      else stL
    if st1.position_size = 0 then st1
    else log_trade P st1 TradeAction.CLOSE final_row.close final_row.date
      "End of backtest" (bars.length - 1)

/-- A raw OHLC bar of the input series, before indicator computation. -/
structure RawBar where
  «open» : ℚ
  high : ℚ
  low : ℚ
  close : ℚ
deriving DecidableEq

/-- Maximum of a list of rationals (`none` on the empty list), the value of
a full pandas rolling-`max` window. -/
def listMax : List ℚ → Option ℚ
  | [] => none
  | x :: xs =>
    match listMax xs with
    | none => some x
    | some m => some (max x m)

/-- Minimum of a list of rationals (`none` on the empty list), the value of
a full pandas rolling-`min` window. -/
def listMin : List ℚ → Option ℚ
  | [] => none
  | x :: xs =>
    match listMin xs with
    | none => some x
    | some m => some (min x m)

/-- The window `xs[i-L .. i-1]` read by `rolling(window=L).agg(...).shift(1)`
at index `i`. -/
def rollingWindow (xs : List ℚ) (L i : ℕ) : List ℚ := (xs.take i).drop (i - L)

/-- `df['highest_high'] = df['high'].rolling(window=lookback).max().shift(1)`:
defined (`some`) once the shifted rolling window is full, i.e. for
`L ≤ i < len`; `NaN` (`none`) before that. -/
def highest_high (L : ℕ) (bars : List RawBar) (i : ℕ) : Option ℚ :=
  if L ≤ i ∧ i < bars.length then
    listMax (rollingWindow (bars.map (fun b => b.high)) L i)
  else none

/-- `df['lowest_low'] = df['low'].rolling(window=lookback).min().shift(1)`. -/
def lowest_low (L : ℕ) (bars : List RawBar) (i : ℕ) : Option ℚ :=
  if L ≤ i ∧ i < bars.length then
    listMin (rollingWindow (bars.map (fun b => b.low)) L i)
  else none

/-- `df['breakout_range'] = df['highest_high'] - df['lowest_low']`. -/
def breakout_range (L : ℕ) (bars : List RawBar) (i : ℕ) : Option ℚ :=
  match highest_high L bars i, lowest_low L bars i with
  | some hh, some ll => some (hh - ll)
  | _, _ => none

/-- `df['upper_boundary'] = df['open'] + df['breakout_range'] * range_mult`. -/
def upper_boundary (P : Params) (bars : List RawBar) (i : ℕ) : Option ℚ :=
  match bars.get? i, breakout_range P.lookback_period bars i with
  | some b, some r => some (b.«open» + r * P.range_mult)
  | _, _ => none

/-- `df['lower_boundary'] = df['open'] - df['breakout_range'] * range_mult`. -/
def lower_boundary (P : Params) (bars : List RawBar) (i : ℕ) : Option ℚ :=
  match bars.get? i, breakout_range P.lookback_period bars i with
  | some b, some r => some (b.«open» - r * P.range_mult)
  | _, _ => none

/-- The true-range series of `calculate_atr`: `tr2` and `tr3` use the shifted
close and are `NaN` on the first bar, and the row-wise pandas `max` skips
`NaN`, so on bar 0 the true range degenerates to `high - low`. -/
def true_range (bars : List RawBar) : ℕ → Option ℚ
  | 0 =>
    match bars.get? 0 with
    | none => none
    | some b => some (b.high - b.low)
  | i + 1 =>
    match bars.get? (i + 1), bars.get? i with
    | some b, some p =>
      some (max (b.high - b.low) (max (pyabs (b.high - p.close)) (pyabs (b.low - p.close))))
    | _, _ => none

/-- `true_range.ewm(alpha=1/period, adjust=False).mean()`: the running
moving average, seeded with the first true-range value and obeying
`atr[i] = atr[i-1]*(period-1)/period + tr[i]/period` afterwards. -/
def atr (period : ℕ) (bars : List RawBar) : ℕ → Option ℚ
  | 0 => true_range bars 0
  | i + 1 =>
    match atr period bars i, true_range bars (i + 1) with
    | some a, some t =>
      some (a * ((period : ℚ) - 1) / period + t / period)
    | _, _ => none

/-- Simple rolling mean of true range over `period` bars.  This definition
follows the words of the specification (the alternative that the spec rules
out), for comparison against the source's `atr`. -/
def simpleRollingMeanTR (period : ℕ) (bars : List RawBar) (i : ℕ) : Option ℚ :=
  if 1 ≤ period ∧ period ≤ i + 1 ∧ i < bars.length then
    some ((((List.range period).map
      (fun k => (true_range bars (i - k)).getD 0)).foldl (fun a x => a + x) 0) / period)
  else none

lemma log_trade_close_eq (P : Params) (st : EngineState) (price : ℚ) (d r : String) (i : ℕ) :
    log_trade P st TradeAction.CLOSE price d r i =
      { st with
        trade_id := st.trade_id + 1
        equity := (closeRecord P st price d r i).equity_after
        position_size := 0
        position_avg_price := 0
        trade_log := st.trade_log ++ [closeRecord P st price d r i] } := rfl

lemma log_trade_long_eq (P : Params) (st : EngineState) (price : ℚ) (d r : String) (i : ℕ) :
    log_trade P st TradeAction.LONG price d r i =
      { st with
        trade_id := st.trade_id + 1
        equity := (entryRecord P st TradeAction.LONG price d r i).equity_after
        position_size := (entryRecord P st TradeAction.LONG price d r i).position_size
        position_avg_price := price
        trade_log := st.trade_log ++ [entryRecord P st TradeAction.LONG price d r i] } := rfl

lemma log_trade_short_eq (P : Params) (st : EngineState) (price : ℚ) (d r : String) (i : ℕ) :
    log_trade P st TradeAction.SHORT price d r i =
      { st with
        trade_id := st.trade_id + 1
        equity := (entryRecord P st TradeAction.SHORT price d r i).equity_after
        position_size := -(entryRecord P st TradeAction.SHORT price d r i).position_size
        position_avg_price := price
        trade_log := st.trade_log ++ [entryRecord P st TradeAction.SHORT price d r i] } := rfl

lemma closeRecord_isEntry (P : Params) (st : EngineState) (price : ℚ) (d r : String) (i : ℕ) :
    isEntry (closeRecord P st price d r i) = false := by
  by_cases h : 0 < st.position_size <;> simp [closeRecord, isEntry, h]

lemma entryRecord_long_action (P : Params) (st : EngineState) (price : ℚ) (d r : String) (i : ℕ) :
    (entryRecord P st TradeAction.LONG price d r i).action = ActionLabel.LONG := rfl

lemma entryRecord_long_isEntry (P : Params) (st : EngineState) (price : ℚ) (d r : String) (i : ℕ) :
    isEntry (entryRecord P st TradeAction.LONG price d r i) = true := rfl

lemma execute_pending_none (P : Params) (st : EngineState) (op : ℚ) (d : String) (i : ℕ)
    (h : st.pending_signal = none) : execute_pending_signal P st op d i = st := by
  simp [execute_pending_signal, h]

lemma check_stop_loss_flat (P : Params) (st : EngineState) (row : BarRow) (i : ℕ)
    (h : st.position_size = 0) : check_stop_loss P st row i = (st, false) := by
  simp [check_stop_loss, h]

lemma check_stop_loss_cases (P : Params) (st : EngineState) (row : BarRow) (i : ℕ) :
    (check_stop_loss P st row i).1 = st ∨
    ∃ p r, (check_stop_loss P st row i).1 = log_trade P st TradeAction.CLOSE p row.date r i := by
  by_cases h0 : st.position_size = 0
  · left; simp [check_stop_loss, h0]
  · cases hatr : row.atr with
    | none => left; simp [check_stop_loss, h0, hatr]
    | some a =>
      by_cases hs : 0 < st.position_size
      · by_cases hlow : row.low ≤ st.position_avg_price - a * P.stop_loss_mult
        · right
          exact ⟨st.position_avg_price - a * P.stop_loss_mult, "SL Long",
            by simp [check_stop_loss, h0, hatr, hs, hlow]⟩
        · left; simp [check_stop_loss, h0, hatr, hs, hlow]
      · by_cases hhigh : st.position_avg_price + a * P.stop_loss_mult ≤ row.high
        · right
          exact ⟨st.position_avg_price + a * P.stop_loss_mult, "SL Short",
            by simp [check_stop_loss, h0, hatr, hs, hhigh]⟩
        · left; simp [check_stop_loss, h0, hatr, hs, hhigh]

lemma check_stop_loss_log (P : Params) (st : EngineState) (row : BarRow) (i : ℕ) :
    ∃ t, (check_stop_loss P st row i).1.trade_log = st.trade_log ++ t ∧
      t.filter isEntry = [] ∧
      (check_stop_loss P st row i).1.pending_signal = st.pending_signal := by
  rcases check_stop_loss_cases P st row i with h | ⟨p, r, h⟩
  · exact ⟨[], by simp [h], rfl, by simp [h]⟩
  · exact ⟨[closeRecord P st p row.date r i],
      by simp [h, log_trade_close_eq],
      by simp [closeRecord_isEntry],
      by simp [h, log_trade_close_eq]⟩

lemma processBar_trade_log (P : Params) (st : EngineState) (row : BarRow) (i : ℕ) :
    (processBar P st row i).trade_log =
      (check_stop_loss P (execute_pending_signal P st row.«open» row.date i) row i).1.trade_log := by
  simp only [processBar]
  split <;> rfl

lemma processBar_position (P : Params) (st : EngineState) (row : BarRow) (i : ℕ) :
    (processBar P st row i).position_size =
      (check_stop_loss P (execute_pending_signal P st row.«open» row.date i) row i).1.position_size := by
  simp only [processBar]
  split <;> rfl

/-- C1: a long breakout detected by `detect_signals` on bar N (boundaries
valid, `go_long`, flat, nothing pending) executes no trade on bar N itself:
the signal is only queued as pending.  On bar N+1 the queued signal is
executed first — the first record appended during bar N+1 is the LONG entry,
priced at bar N+1's open — and it is the only entry record produced over the
two bars. -/
theorem c1_breakout_executes_at_next_bar_open (P : Params) (st : EngineState)
    (rowN rowN1 : BarRow) (iN iN1 : ℕ)
    (hflat : st.position_size = 0) (hpend : st.pending_signal = none)
    (hub : rowN.upper_boundary.isSome = true) (hlb : rowN.lower_boundary.isSome = true)
    (hlong : rowN.go_long = true) :
    (processBar P st rowN iN).trade_log = st.trade_log ∧
    (processBar P st rowN iN).pending_signal = some ⟨SignalType.LONG, "Long Entry"⟩ ∧
    (((processBar P (processBar P st rowN iN) rowN1 iN1).trade_log.drop
        st.trade_log.length).head?.map (fun rec => (rec.action, rec.execution_price)) =
      some (ActionLabel.LONG, rowN1.«open»)) ∧
    ((((processBar P (processBar P st rowN iN) rowN1 iN1).trade_log.drop
        st.trade_log.length).filter isEntry).map
          (fun rec => (rec.action, rec.execution_price)) =
      [(ActionLabel.LONG, rowN1.«open»)]) := by
  obtain ⟨u, hu⟩ := Option.isSome_iff_exists.mp hub
  obtain ⟨l, hl⟩ := Option.isSome_iff_exists.mp hlb
  have hdet : detect_signals st.position_size rowN = some ⟨SignalType.LONG, "Long Entry"⟩ := by
    simp [detect_signals, hu, hl, hlong, hflat]
  have hA : processBar P st rowN iN =
      { st with pending_signal := some ⟨SignalType.LONG, "Long Entry"⟩ } := by
    simp only [processBar, execute_pending_none P st _ _ _ hpend,
      check_stop_loss_flat P st rowN iN hflat, hdet, Option.isSome_some, if_true]
  set stN : EngineState := { st with pending_signal := some ⟨SignalType.LONG, "Long Entry"⟩ }
    with hstN
  have hexec : execute_pending_signal P stN rowN1.«open» rowN1.date iN1 =
      log_trade P { st with pending_signal := none } TradeAction.LONG rowN1.«open»
        rowN1.date "Long Entry" iN1 := by
    simp [execute_pending_signal, hstN]
  obtain ⟨t, hlog, hfilt, _⟩ := check_stop_loss_log P
    (log_trade P { st with pending_signal := none } TradeAction.LONG rowN1.«open»
      rowN1.date "Long Entry" iN1) rowN1 iN1
  have hBlog : (processBar P stN rowN1 iN1).trade_log =
      st.trade_log ++
        (entryRecord P { st with pending_signal := none } TradeAction.LONG rowN1.«open»
          rowN1.date "Long Entry" iN1 :: t) := by
    rw [processBar_trade_log, hexec, hlog, log_trade_long_eq]
    simp
  refine ⟨by rw [hA], by rw [hA], ?_, ?_⟩
  · rw [hA]
    rw [hstN] at hBlog
    rw [hBlog, List.drop_left]
    simp [entryRecord]
  · rw [hA]
    rw [hstN] at hBlog
    rw [hBlog, List.drop_left]
    rw [List.filter_cons_of_pos (by simp [entryRecord_long_isEntry]), hfilt]
    simp [entryRecord]

/-- Witness inputs for the claim theorems: bar N detects a long breakout. -/
def witnessBarN : BarRow :=
  { date := "2020-01-01", «open» := 100, high := 120, low := 95, close := 110,
    atr := some 2, upper_boundary := some 105, lower_boundary := some 95,
    go_long := true, go_short := false }

/-- Witness inputs for the claim theorems: bar N+1, no breakout. -/
def witnessBarN1 : BarRow :=
  { date := "2020-01-02", «open» := 108, high := 115, low := 100, close := 112,
    atr := some 2, upper_boundary := some 150, lower_boundary := some 60,
    go_long := false, go_short := false }

/-- Witness for C1 at a concrete flat state and concrete bars. -/
theorem c1_breakout_executes_at_next_bar_open_witness :
    (processBar defaultParams (initState defaultParams) witnessBarN 0).trade_log =
      (initState defaultParams).trade_log ∧
    (processBar defaultParams (initState defaultParams) witnessBarN 0).pending_signal =
      some ⟨SignalType.LONG, "Long Entry"⟩ ∧
    (((processBar defaultParams
          (processBar defaultParams (initState defaultParams) witnessBarN 0)
          witnessBarN1 1).trade_log.drop
        (initState defaultParams).trade_log.length).head?.map
          (fun rec => (rec.action, rec.execution_price)) =
      some (ActionLabel.LONG, witnessBarN1.«open»)) ∧
    ((((processBar defaultParams
          (processBar defaultParams (initState defaultParams) witnessBarN 0)
          witnessBarN1 1).trade_log.drop
        (initState defaultParams).trade_log.length).filter isEntry).map
          (fun rec => (rec.action, rec.execution_price)) =
      [(ActionLabel.LONG, witnessBarN1.«open»)]) :=
  c1_breakout_executes_at_next_bar_open defaultParams (initState defaultParams)
    witnessBarN witnessBarN1 0 1 rfl rfl rfl rfl rfl

/-- C2: with a position open on the current bar (and nothing pending, so the
position is the one held when the stop is checked) and a defined ATR, a bar
whose low reaches the long stop price `avg - atr*stop_loss_mult` (resp.
whose high reaches the short stop price `avg + atr*stop_loss_mult`) closes
the position within that same bar, and the single record appended that bar
is a close executed exactly at the computed stop price — not at the bar's
open or close. -/
theorem c2_stop_loss_fires_same_bar_at_stop_price (P : Params) (st : EngineState)
    (row : BarRow) (i : ℕ) (a : ℚ)
    (hpend : st.pending_signal = none) (hatr : row.atr = some a) :
    (0 < st.position_size →
      row.low ≤ st.position_avg_price - a * P.stop_loss_mult →
      (processBar P st row i).position_size = 0 ∧
      ((processBar P st row i).trade_log.drop st.trade_log.length).map
          (fun rec => (rec.action, rec.execution_price)) =
        [(ActionLabel.CLOSE_LONG, st.position_avg_price - a * P.stop_loss_mult)]) ∧
    (st.position_size < 0 →
      st.position_avg_price + a * P.stop_loss_mult ≤ row.high →
      (processBar P st row i).position_size = 0 ∧
      ((processBar P st row i).trade_log.drop st.trade_log.length).map
          (fun rec => (rec.action, rec.execution_price)) =
        [(ActionLabel.CLOSE_SHORT, st.position_avg_price + a * P.stop_loss_mult)]) := by
  constructor
  · intro hpos hlow
    have hcs : check_stop_loss P st row i =
        (log_trade P st TradeAction.CLOSE (st.position_avg_price - a * P.stop_loss_mult)
          row.date "SL Long" i, true) := by
      simp [check_stop_loss, hatr, hpos, hlow, ne_of_gt hpos]
    constructor
    · rw [processBar_position, execute_pending_none P st _ _ _ hpend, hcs,
        log_trade_close_eq]
    · rw [processBar_trade_log, execute_pending_none P st _ _ _ hpend, hcs,
        log_trade_close_eq]
      simp [List.drop_left, closeRecord, hpos]
  · intro hneg hhigh
    have hcs : check_stop_loss P st row i =
        (log_trade P st TradeAction.CLOSE (st.position_avg_price + a * P.stop_loss_mult)
          row.date "SL Short" i, true) := by
      simp [check_stop_loss, hatr, hhigh, ne_of_lt hneg, not_lt_of_lt hneg]
    constructor
    · rw [processBar_position, execute_pending_none P st _ _ _ hpend, hcs,
        log_trade_close_eq]
    · rw [processBar_trade_log, execute_pending_none P st _ _ _ hpend, hcs,
        log_trade_close_eq]
      simp [List.drop_left, closeRecord, not_lt_of_lt hneg]

/-- A concrete open long position used to witness C2. -/
def c2State : EngineState :=
  { position_size := 3, position_avg_price := 100, equity := 100000,
    trade_id := 0, pending_signal := none, trade_log := [] }

/-- A concrete bar whose low breaches the long stop 100 - 2*2.5 = 95. -/
def c2Bar : BarRow :=
  { date := "2020-03-01", «open» := 99, high := 101, low := 94, close := 96,
    atr := some 2, upper_boundary := some 130, lower_boundary := some 70,
    go_long := false, go_short := false }

/-- Witness for C2: the long stop fires intrabar at the computed stop price. -/
theorem c2_stop_loss_fires_same_bar_at_stop_price_witness :
    (processBar defaultParams c2State c2Bar 3).position_size = 0 ∧
    ((processBar defaultParams c2State c2Bar 3).trade_log.drop
        c2State.trade_log.length).map (fun rec => (rec.action, rec.execution_price)) =
      [(ActionLabel.CLOSE_LONG, c2State.position_avg_price - 2 * defaultParams.stop_loss_mult)] :=
  (c2_stop_loss_fires_same_bar_at_stop_price defaultParams c2State c2Bar 3 2 rfl rfl).1
    (by norm_num [c2State]) (by norm_num [c2State, c2Bar, defaultParams])

lemma long_ne_close : TradeAction.LONG ≠ TradeAction.CLOSE := by decide

lemma short_ne_close : TradeAction.SHORT ≠ TradeAction.CLOSE := by decide

lemma short_ne_long : TradeAction.SHORT ≠ TradeAction.LONG := by decide

/-- First bar of the C3 run: boundaries still undefined, nothing happens. -/
def c3Bar1 : BarRow :=
  { date := "2020-01-01", «open» := 100, high := 101, low := 99, close := 100,
    atr := some 1, upper_boundary := none, lower_boundary := none,
    go_long := false, go_short := false }

/-- Last bar of the C3 run: a long breakout is detected on it, so a signal
is still pending when the series ends. -/
def c3Bar2 : BarRow :=
  { date := "2020-01-02", «open» := 100, high := 120, low := 99, close := 110,
    atr := some 1, upper_boundary := some 105, lower_boundary := some 95,
    go_long := true, go_short := false }

/-- C3 counterexample: on this two-bar series the loop itself executes no
trade and leaves a LONG signal pending, yet `run_correct_timing_backtest`
then EXECUTES that pending signal at the final bar's close (110) — the
trade log of the full run contains a LONG entry priced at the final close,
followed by the forced close.  The pending signal is not discarded, refuting
the claim that no trade is executed from a pending signal after the last
bar has been processed. -/
theorem c3_counterexample_pending_signal_executes_after_last_bar :
    (runLoop defaultParams (initState defaultParams) 0 [c3Bar1, c3Bar2]).trade_log = [] ∧
    (runLoop defaultParams (initState defaultParams) 0 [c3Bar1, c3Bar2]).pending_signal =
      some ⟨SignalType.LONG, "Long Entry"⟩ ∧
    (run_correct_timing_backtest defaultParams [c3Bar1, c3Bar2]).trade_log.map
        (fun rec => (rec.action, rec.execution_price)) =
      [(ActionLabel.LONG, 110), (ActionLabel.CLOSE_LONG, 110)] := by
  norm_num [run_correct_timing_backtest, runLoop, processBar, execute_pending_signal,
    check_stop_loss, detect_signals, log_trade, closeRecord, entryRecord,
    calculate_position_size_value, initState, defaultParams, c3Bar1, c3Bar2, pyabs,
    long_ne_close, short_ne_close, short_ne_long]

/-- C3 amended: at the end of the bar series any open position is
force-closed at the final bar's close; but a signal still pending at series
end is NOT discarded — it is executed at the final bar's close, and the
position it opens is then force-closed at that same price. -/
theorem c3_amended_final_pending_executes_then_close (P : Params) (bars : List BarRow)
    (final_row : BarRow) (hlast : bars.getLast? = some final_row) :
    ((runLoop P (initState P) 0 bars).pending_signal = none →
      (runLoop P (initState P) 0 bars).position_size ≠ 0 →
      ((run_correct_timing_backtest P bars).trade_log.drop
          (runLoop P (initState P) 0 bars).trade_log.length).map
        (fun rec => (rec.action, rec.execution_price)) =
      [(if 0 < (runLoop P (initState P) 0 bars).position_size then ActionLabel.CLOSE_LONG
        else ActionLabel.CLOSE_SHORT, final_row.close)]) ∧
    (∀ reason, (runLoop P (initState P) 0 bars).pending_signal =
        some ⟨SignalType.LONG, reason⟩ →
      (runLoop P (initState P) 0 bars).position_size = 0 →
      0 < (runLoop P (initState P) 0 bars).equity → 0 < final_row.close →
      0 < P.qty_value →
      ((run_correct_timing_backtest P bars).trade_log.drop
          (runLoop P (initState P) 0 bars).trade_log.length).map
        (fun rec => (rec.action, rec.execution_price)) =
      [(ActionLabel.LONG, final_row.close), (ActionLabel.CLOSE_LONG, final_row.close)]) := by
  set stL := runLoop P (initState P) 0 bars with hstL
  constructor
  · intro hpend hne
    have hrun : run_correct_timing_backtest P bars =
        log_trade P stL TradeAction.CLOSE final_row.close final_row.date
          "End of backtest" (bars.length - 1) := by
      simp only [run_correct_timing_backtest, hlast, ← hstL, hpend, Option.isSome_none,
        Bool.false_eq_true, if_false, if_neg hne]
    rw [hrun, log_trade_close_eq]
    simp [List.drop_left, closeRecord]
  · intro reason hpend hflat he hclose hq
    have hsize : 0 < calculate_position_size_value P { stL with pending_signal := none }
        final_row.close :=
      div_pos (mul_pos he (div_pos hq (by norm_num))) hclose
    have hexec : execute_pending_signal P stL final_row.close final_row.date
        (bars.length - 1) =
        log_trade P { stL with pending_signal := none } TradeAction.LONG final_row.close
          final_row.date "Long Entry" (bars.length - 1) := by
      simp [execute_pending_signal, hpend]
    have hpos1 : (0:ℚ) <
        (log_trade P { stL with pending_signal := none } TradeAction.LONG final_row.close
          final_row.date "Long Entry" (bars.length - 1)).position_size := by
      rw [log_trade_long_eq]
      simpa [entryRecord] using hsize
    have hrun : run_correct_timing_backtest P bars =
        log_trade P
          (log_trade P { stL with pending_signal := none } TradeAction.LONG final_row.close
            final_row.date "Long Entry" (bars.length - 1))
          TradeAction.CLOSE final_row.close final_row.date "End of backtest"
          (bars.length - 1) := by
      simp only [run_correct_timing_backtest, hlast, ← hstL, hpend, Option.isSome_some,
        if_true, hexec, if_neg (ne_of_gt hpos1)]
    rw [hrun, log_trade_close_eq, log_trade_long_eq]
    simp only [List.append_assoc, List.cons_append, List.nil_append]
    rw [List.drop_left]
    simp [closeRecord, entryRecord, hpos1, hsize, log_trade_long_eq]

/-- Evaluation of the C3 two-bar loop: no trades, one pending LONG signal. -/
lemma c3_loop_eval : runLoop defaultParams (initState defaultParams) 0 [c3Bar1, c3Bar2] =
    { initState defaultParams with pending_signal := some ⟨SignalType.LONG, "Long Entry"⟩ } := by
  norm_num [runLoop, processBar, execute_pending_signal, check_stop_loss, detect_signals,
    initState, defaultParams, c3Bar1, c3Bar2]

/-- Witness for the amended C3 on the concrete two-bar series. -/
theorem c3_amended_final_pending_executes_then_close_witness :
    ((run_correct_timing_backtest defaultParams [c3Bar1, c3Bar2]).trade_log.drop
        (runLoop defaultParams (initState defaultParams) 0 [c3Bar1, c3Bar2]).trade_log.length).map
      (fun rec => (rec.action, rec.execution_price)) =
    [(ActionLabel.LONG, c3Bar2.close), (ActionLabel.CLOSE_LONG, c3Bar2.close)] :=
  (c3_amended_final_pending_executes_then_close defaultParams [c3Bar1, c3Bar2] c3Bar2
      rfl).2 "Long Entry"
    (by rw [c3_loop_eval])
    (by rw [c3_loop_eval]; rfl)
    (by rw [c3_loop_eval]; norm_num [initState, defaultParams])
    (by norm_num [c3Bar2])
    (by norm_num [defaultParams])

/-- A long position about to be stopped out, used against C4. -/
def c4State : EngineState :=
  { position_size := 1, position_avg_price := 100, equity := 100000,
    trade_id := 0, pending_signal := none, trade_log := [] }

/-- A bar that both triggers the long stop (low 90 ≤ 100 - 2*2.5 = 95) and
shows a long breakout (go_long with valid boundaries). -/
def c4Bar : BarRow :=
  { date := "2020-05-05", «open» := 100, high := 120, low := 90, close := 96,
    atr := some 2, upper_boundary := some 105, lower_boundary := some 50,
    go_long := true, go_short := false }

/-- C4 counterexample: on a bar whose stop-loss closes the position (the one
record appended is the stop close at 95), `detect_signals` still runs and a
new LONG pending signal IS queued from that very bar — refuting the claim
that no pending signal is ever queued from a bar whose stop-loss closed the
position. -/
theorem c4_counterexample_signal_queued_on_stop_loss_bar :
    ((processBar defaultParams c4State c4Bar 7).trade_log.map
        (fun rec => (rec.action, rec.execution_price)) = [(ActionLabel.CLOSE_LONG, 95)]) ∧
    (processBar defaultParams c4State c4Bar 7).pending_signal =
      some ⟨SignalType.LONG, "Long Entry"⟩ := by
  norm_num [processBar, execute_pending_signal, check_stop_loss, detect_signals,
    log_trade, closeRecord, calculate_position_size_value, c4State, c4Bar,
    defaultParams, pyabs]

/-- C4 amended: `detect_signals` runs even on a bar whose stop-loss closed
the position; with valid boundaries and a long breakout on such a bar, a
new LONG pending signal is queued (detection sees the post-stop flat
position), while the bar's only trade record is the stop close. -/
theorem c4_amended_detector_runs_after_stop_loss (P : Params) (st : EngineState)
    (row : BarRow) (i : ℕ) (a : ℚ)
    (hpend : st.pending_signal = none) (hpos : 0 < st.position_size)
    (hatr : row.atr = some a)
    (hstop : row.low ≤ st.position_avg_price - a * P.stop_loss_mult)
    (hub : row.upper_boundary.isSome = true) (hlb : row.lower_boundary.isSome = true)
    (hlong : row.go_long = true) :
    ((processBar P st row i).trade_log.drop st.trade_log.length).map
        (fun rec => (rec.action, rec.execution_price)) =
      [(ActionLabel.CLOSE_LONG, st.position_avg_price - a * P.stop_loss_mult)] ∧
    (processBar P st row i).pending_signal = some ⟨SignalType.LONG, "Long Entry"⟩ := by
  obtain ⟨u, hu⟩ := Option.isSome_iff_exists.mp hub
  obtain ⟨l, hl⟩ := Option.isSome_iff_exists.mp hlb
  have hcs : check_stop_loss P st row i =
      (log_trade P st TradeAction.CLOSE (st.position_avg_price - a * P.stop_loss_mult)
        row.date "SL Long" i, true) := by
    simp [check_stop_loss, hatr, hpos, hstop, ne_of_gt hpos]
  have hdet : detect_signals
      (log_trade P st TradeAction.CLOSE (st.position_avg_price - a * P.stop_loss_mult)
        row.date "SL Long" i).position_size row =
      some ⟨SignalType.LONG, "Long Entry"⟩ := by
    rw [log_trade_close_eq]
    simp [detect_signals, hu, hl, hlong]
  have hpb : processBar P st row i =
      { log_trade P st TradeAction.CLOSE (st.position_avg_price - a * P.stop_loss_mult)
          row.date "SL Long" i with
        pending_signal := some ⟨SignalType.LONG, "Long Entry"⟩ } := by
    simp only [processBar, execute_pending_none P st _ _ _ hpend, hcs, hdet,
      Option.isSome_some, if_true]
  rw [hpb]
  constructor
  · rw [log_trade_close_eq]
    simp [List.drop_left, closeRecord, hpos]
  · rfl

/-- Witness for the amended C4 at the concrete stopped-out state and bar. -/
theorem c4_amended_detector_runs_after_stop_loss_witness :
    ((processBar defaultParams c4State c4Bar 7).trade_log.drop
        c4State.trade_log.length).map (fun rec => (rec.action, rec.execution_price)) =
      [(ActionLabel.CLOSE_LONG, c4State.position_avg_price - 2 * defaultParams.stop_loss_mult)] ∧
    (processBar defaultParams c4State c4Bar 7).pending_signal =
      some ⟨SignalType.LONG, "Long Entry"⟩ :=
  c4_amended_detector_runs_after_stop_loss defaultParams c4State c4Bar 7 2
    rfl (by norm_num [c4State]) rfl
    (by norm_num [c4State, c4Bar, defaultParams]) rfl rfl rfl

/-- A bar on which both breakouts fire and the short breach is far larger:
open 100, upper 110, lower 90, high 111 (breach 1 above the boundary, 11
above the open), low 50 (breach 40 below the boundary, 50 below the open). -/
def c5Bar : BarRow :=
  { date := "2020-07-07", «open» := 100, high := 111, low := 50, close := 80,
    atr := some 1, upper_boundary := some 110, lower_boundary := some 90,
    go_long := true, go_short := true }

/-- C5 counterexample: both breakouts fire on this bar and every breach
distance measured from the bar's open (or beyond the boundary) is strictly
larger on the short side, yet `detect_signals` selects the LONG signal —
refuting the claimed larger-breach-distance tie-break. -/
theorem c5_counterexample_long_wins_despite_smaller_breach :
    detect_signals 0 c5Bar = some ⟨SignalType.LONG, "Long Entry"⟩ ∧
    c5Bar.go_long = true ∧ c5Bar.go_short = true ∧
    c5Bar.high - c5Bar.«open» < c5Bar.«open» - c5Bar.low ∧
    c5Bar.upper_boundary = some 110 ∧ c5Bar.lower_boundary = some 90 ∧
    c5Bar.high - 110 < 90 - c5Bar.low := by
  norm_num [detect_signals, c5Bar]

/-- C5 amended: when both breakouts fire on one bar, the long branch is
taken unconditionally — `go_long` is tested first and `go_short` only in an
`elif` — so the outcome with `go_long` set is the long-branch outcome
whatever `go_short` and the breach distances are; distances are never
compared. -/
theorem c5_amended_long_breakout_takes_priority (position_size : ℚ) (row : BarRow)
    (hub : row.upper_boundary.isSome = true) (hlb : row.lower_boundary.isSome = true)
    (hlong : row.go_long = true) :
    detect_signals position_size row =
      if position_size < 0 then some ⟨SignalType.REVERSE_TO_LONG, "Reverse to Long"⟩
      else if position_size ≤ 0 then some ⟨SignalType.LONG, "Long Entry"⟩
      else none := by
  obtain ⟨u, hu⟩ := Option.isSome_iff_exists.mp hub
  obtain ⟨l, hl⟩ := Option.isSome_iff_exists.mp hlb
  simp [detect_signals, hu, hl, hlong]

/-- Witness for the amended C5 on the double-breakout bar while flat. -/
theorem c5_amended_long_breakout_takes_priority_witness :
    detect_signals 0 c5Bar =
      if (0:ℚ) < 0 then some ⟨SignalType.REVERSE_TO_LONG, "Reverse to Long"⟩
      else if (0:ℚ) ≤ 0 then some ⟨SignalType.LONG, "Long Entry"⟩
      else none :=
  c5_amended_long_breakout_takes_priority 0 c5Bar rfl rfl rfl

lemma listMax_eq_none {xs : List ℚ} : listMax xs = none ↔ xs = [] := by
  cases xs with
  | nil => simp [listMax]
  | cons x t => cases h' : listMax t <;> simp [listMax, h']

lemma listMax_isSome {xs : List ℚ} (h : xs ≠ []) : (listMax xs).isSome = true := by
  cases h' : listMax xs with
  | none => exact absurd (listMax_eq_none.mp h') h
  | some m => rfl

lemma listMax_mem : ∀ {xs : List ℚ} {m : ℚ}, listMax xs = some m → m ∈ xs := by
  intro xs
  induction xs with
  | nil => intro m h; simp [listMax] at h
  | cons x t ih =>
    intro m h
    rw [listMax] at h
    cases h' : listMax t with
    | none =>
      rw [h'] at h
      simp only [Option.some.injEq] at h
      simp [← h]
    | some mt =>
      rw [h'] at h
      simp only [Option.some.injEq] at h
      rcases le_total x mt with hx | hx
      · rw [← h, max_eq_right hx]
        exact List.mem_cons_of_mem _ (ih h')
      · rw [← h, max_eq_left hx]
        exact List.mem_cons_self _ _

lemma le_listMax : ∀ {xs : List ℚ} {m x : ℚ}, listMax xs = some m → x ∈ xs → x ≤ m := by
  intro xs
  induction xs with
  | nil => intro m x _ hx; simp at hx
  | cons y t ih =>
    intro m x h hx
    rw [listMax] at h
    cases h' : listMax t with
    | none =>
      rw [h'] at h
      simp only [Option.some.injEq] at h
      have ht : t = [] := listMax_eq_none.mp h'
      subst ht
      rcases List.mem_singleton.mp hx with rfl
      exact le_of_eq h
    | some mt =>
      rw [h'] at h
      simp only [Option.some.injEq] at h
      rcases List.mem_cons.mp hx with rfl | hxt
      · exact h ▸ le_max_left _ _
      · exact h ▸ le_trans (ih h' hxt) (le_max_right _ _)

lemma listMin_eq_none {xs : List ℚ} : listMin xs = none ↔ xs = [] := by
  cases xs with
  | nil => simp [listMin]
  | cons x t => cases h' : listMin t <;> simp [listMin, h']

lemma listMin_isSome {xs : List ℚ} (h : xs ≠ []) : (listMin xs).isSome = true := by
  cases h' : listMin xs with
  | none => exact absurd (listMin_eq_none.mp h') h
  | some m => rfl

lemma listMin_mem : ∀ {xs : List ℚ} {m : ℚ}, listMin xs = some m → m ∈ xs := by
  intro xs
  induction xs with
  | nil => intro m h; simp [listMin] at h
  | cons x t ih =>
    intro m h
    rw [listMin] at h
    cases h' : listMin t with
    | none =>
      rw [h'] at h
      simp only [Option.some.injEq] at h
      simp [← h]
    | some mt =>
      rw [h'] at h
      simp only [Option.some.injEq] at h
      rcases le_total x mt with hx | hx
      · rw [← h, min_eq_left hx]
        exact List.mem_cons_self _ _
      · rw [← h, min_eq_right hx]
        exact List.mem_cons_of_mem _ (ih h')

lemma listMin_le : ∀ {xs : List ℚ} {m x : ℚ}, listMin xs = some m → x ∈ xs → m ≤ x := by
  intro xs
  induction xs with
  | nil => intro m x _ hx; simp at hx
  | cons y t ih =>
    intro m x h hx
    rw [listMin] at h
    cases h' : listMin t with
    | none =>
      rw [h'] at h
      simp only [Option.some.injEq] at h
      have ht : t = [] := listMin_eq_none.mp h'
      subst ht
      rcases List.mem_singleton.mp hx with rfl
      exact le_of_eq h.symm
    | some mt =>
      rw [h'] at h
      simp only [Option.some.injEq] at h
      rcases List.mem_cons.mp hx with rfl | hxt
      · exact h ▸ min_le_left _ _
      · exact h ▸ le_trans (min_le_right _ _) (ih h' hxt)

lemma rollingWindow_mem {xs : List ℚ} {L i : ℕ} {x : ℚ} :
    x ∈ rollingWindow xs L i ↔ ∃ j, i - L ≤ j ∧ j < i ∧ xs.get? j = some x := by
  unfold rollingWindow
  rw [List.mem_iff_get?]
  constructor
  · rintro ⟨n, hn⟩
    rw [List.get?_drop] at hn
    by_cases hlt : i - L + n < i
    · rw [List.get?_take hlt] at hn
      exact ⟨i - L + n, Nat.le_add_right _ _, hlt, hn⟩
    · have hnone : (xs.take i).get? (i - L + n) = none := by
        rw [List.get?_eq_none]
        calc (xs.take i).length ≤ i := by
              rw [List.length_take]; exact min_le_left _ _
          _ ≤ i - L + n := Nat.le_of_not_lt hlt
      rw [hnone] at hn
      cases hn
  · rintro ⟨j, hjl, hji, hj⟩
    refine ⟨j - (i - L), ?_⟩
    rw [List.get?_drop, Nat.add_sub_cancel' hjl, List.get?_take hji]
    exact hj

lemma map_take_agree {α β : Type} (f : α → β) {l l' : List α} {i : ℕ}
    (h : ∀ j, j < i → l'.get? j = l.get? j) :
    (l'.map f).take i = (l.map f).take i := by
  apply List.ext_get?_iff.mpr
  intro n
  by_cases hn : n < i
  · rw [List.get?_take hn, List.get?_take hn, List.get?_map, List.get?_map, h n hn]
  · have h1 : ((l'.map f).take i).get? n = none := by
      rw [List.get?_eq_none]
      exact le_trans (by rw [List.length_take]; exact min_le_left _ _) (Nat.le_of_not_lt hn)
    have h2 : ((l.map f).take i).get? n = none := by
      rw [List.get?_eq_none]
      exact le_trans (by rw [List.length_take]; exact min_le_left _ _) (Nat.le_of_not_lt hn)
    rw [h1, h2]

/-- C6: for every bar index `i` with at least `lookback_period` prior bars,
`highest_high[i]` is the maximum high over bars `i-lookback .. i-1` (bar `i`
excluded) and `lowest_low[i]` the analogous minimum over lows, so the
boundaries `open[i] ± breakout_range[i]*range_mult` depend only on bar `i`'s
open and on bars strictly before `i` — never on bar `i`'s own high, low or
close. -/
theorem c6_boundaries_use_only_prior_bars (P : Params) (bars : List RawBar) (i : ℕ)
    (b : RawBar) (hL : 1 ≤ P.lookback_period) (hi : P.lookback_period ≤ i)
    (hb : bars.get? i = some b) :
    ∃ hh ll,
      highest_high P.lookback_period bars i = some hh ∧
      lowest_low P.lookback_period bars i = some ll ∧
      (∃ j bj, i - P.lookback_period ≤ j ∧ j < i ∧ bars.get? j = some bj ∧ bj.high = hh) ∧
      (∃ j bj, i - P.lookback_period ≤ j ∧ j < i ∧ bars.get? j = some bj ∧ bj.low = ll) ∧
      (∀ j bj, i - P.lookback_period ≤ j → j < i → bars.get? j = some bj →
        bj.high ≤ hh ∧ ll ≤ bj.low) ∧
      upper_boundary P bars i = some (b.«open» + (hh - ll) * P.range_mult) ∧
      lower_boundary P bars i = some (b.«open» - (hh - ll) * P.range_mult) ∧
      (∀ bars' b', bars'.get? i = some b' → b'.«open» = b.«open» →
        (∀ j, j < i → bars'.get? j = bars.get? j) →
        upper_boundary P bars' i = upper_boundary P bars i ∧
        lower_boundary P bars' i = lower_boundary P bars i) := by
  have hlen : i < bars.length := by
    rcases List.get?_eq_some.mp hb with ⟨h, _⟩
    exact h
  have hwin_ne : ∀ f : RawBar → ℚ, rollingWindow (bars.map f) P.lookback_period i ≠ [] := by
    intro f
    apply List.ne_nil_of_length_pos
    rw [rollingWindow, List.length_drop, List.length_take, List.length_map,
      Nat.min_eq_left (Nat.le_of_lt hlen)]
    omega
  obtain ⟨hh, hhh⟩ := Option.isSome_iff_exists.mp
    (listMax_isSome (hwin_ne (fun bb => bb.high)))
  obtain ⟨ll, hll⟩ := Option.isSome_iff_exists.mp
    (listMin_isSome (hwin_ne (fun bb => bb.low)))
  have hHH : highest_high P.lookback_period bars i = some hh := by
    rw [highest_high, if_pos ⟨hi, hlen⟩]
    exact hhh
  have hLL : lowest_low P.lookback_period bars i = some ll := by
    rw [lowest_low, if_pos ⟨hi, hlen⟩]
    exact hll
  have hbr : breakout_range P.lookback_period bars i = some (hh - ll) := by
    rw [breakout_range, hHH, hLL]
  refine ⟨hh, ll, hHH, hLL, ?_, ?_, ?_, ?_, ?_, ?_⟩
  · obtain ⟨j, hj1, hj2, hj3⟩ := rollingWindow_mem.mp (listMax_mem hhh)
    rw [List.get?_map] at hj3
    obtain ⟨bj, hbj, hjh⟩ := Option.map_eq_some'.mp hj3
    exact ⟨j, bj, hj1, hj2, hbj, hjh⟩
  · obtain ⟨j, hj1, hj2, hj3⟩ := rollingWindow_mem.mp (listMin_mem hll)
    rw [List.get?_map] at hj3
    obtain ⟨bj, hbj, hjl⟩ := Option.map_eq_some'.mp hj3
    exact ⟨j, bj, hj1, hj2, hbj, hjl⟩
  · intro j bj h1 h2 h3
    constructor
    · exact le_listMax hhh (rollingWindow_mem.mpr
        ⟨j, h1, h2, by rw [List.get?_map, h3]; rfl⟩)
    · exact listMin_le hll (rollingWindow_mem.mpr
        ⟨j, h1, h2, by rw [List.get?_map, h3]; rfl⟩)
  · unfold upper_boundary
    rw [hb, hbr]
  · unfold lower_boundary
    rw [hb, hbr]
  · intro bars' b' hb' hopen hpre
    have hlen' : i < bars'.length := by
      rcases List.get?_eq_some.mp hb' with ⟨h, _⟩
      exact h
    have hwin' : ∀ f : RawBar → ℚ,
        rollingWindow (bars'.map f) P.lookback_period i =
          rollingWindow (bars.map f) P.lookback_period i := by
      intro f
      unfold rollingWindow
      rw [map_take_agree f hpre]
    have hHH' : highest_high P.lookback_period bars' i = some hh := by
      rw [highest_high, if_pos ⟨hi, hlen'⟩, hwin']
      exact hhh
    have hLL' : lowest_low P.lookback_period bars' i = some ll := by
      rw [lowest_low, if_pos ⟨hi, hlen'⟩, hwin']
      exact hll
    have hbr' : breakout_range P.lookback_period bars' i = some (hh - ll) := by
      rw [breakout_range, hHH', hLL']
    constructor
    · unfold upper_boundary
      rw [hb, hbr, hb', hbr']
      simp [hopen]
    · unfold lower_boundary
      rw [hb, hbr, hb', hbr']
      simp [hopen]

/-- Parameters with a small lookback used to witness C6. -/
def c6Params : Params :=
  { lookback_period := 2, range_mult := 1/2, stop_loss_mult := 5/2, atr_period := 14,
    initial_capital := 100000, commission_rate := 1/1000, qty_value := 99 }

/-- A three-bar raw series used to witness C6 and C7. -/
def c6Bars : List RawBar :=
  [⟨1, 5, 0, 2⟩, ⟨2, 7, 1, 3⟩, ⟨3, 9, 2, 4⟩]

/-- Witness for C6 with lookback 2 at bar index 2 of the three-bar series. -/
theorem c6_boundaries_use_only_prior_bars_witness :
    ∃ hh ll,
      highest_high c6Params.lookback_period c6Bars 2 = some hh ∧
      lowest_low c6Params.lookback_period c6Bars 2 = some ll ∧
      (∃ j bj, 2 - c6Params.lookback_period ≤ j ∧ j < 2 ∧ c6Bars.get? j = some bj ∧
        bj.high = hh) ∧
      (∃ j bj, 2 - c6Params.lookback_period ≤ j ∧ j < 2 ∧ c6Bars.get? j = some bj ∧
        bj.low = ll) ∧
      (∀ j bj, 2 - c6Params.lookback_period ≤ j → j < 2 → c6Bars.get? j = some bj →
        bj.high ≤ hh ∧ ll ≤ bj.low) ∧
      upper_boundary c6Params c6Bars 2 =
        some ((RawBar.mk 3 9 2 4).«open» + (hh - ll) * c6Params.range_mult) ∧
      lower_boundary c6Params c6Bars 2 =
        some ((RawBar.mk 3 9 2 4).«open» - (hh - ll) * c6Params.range_mult) ∧
      (∀ bars' b', bars'.get? 2 = some b' → b'.«open» = (RawBar.mk 3 9 2 4).«open» →
        (∀ j, j < 2 → bars'.get? j = c6Bars.get? j) →
        upper_boundary c6Params bars' 2 = upper_boundary c6Params c6Bars 2 ∧
        lower_boundary c6Params bars' 2 = lower_boundary c6Params c6Bars 2) :=
  c6_boundaries_use_only_prior_bars c6Params c6Bars 2 (RawBar.mk 3 9 2 4)
    (by norm_num [c6Params]) (by norm_num [c6Params]) rfl

/-- A single raw bar with high 110 and low 95. -/
def c7Bar : RawBar := ⟨100, 110, 95, 105⟩

/-- C7 counterexample: on bar 0 the true range is NOT undefined — the
`NaN`-skipping row-wise max degenerates it to `high - low = 15` — and the
ATR is already seeded with that value on the very first bar (here with
`atr_period = 14` and only one bar in the series), refuting "undefined at
i = 0" and "the seed occurs once enough bars exist". -/
theorem c7_counterexample_true_range_defined_at_zero :
    true_range [c7Bar] 0 = some 15 ∧
    (true_range [c7Bar] 0).isSome = true ∧
    atr 14 [c7Bar] 0 = some 15 := by
  norm_num [true_range, atr, c7Bar]

/-- C7 amended: `true_range[0] = high[0] - low[0]` (the close-based terms
are skipped on the first bar) and the seed is `atr[0] = true_range[0]` at
the very first bar; for every later index the running-moving-average
recurrence `atr[i+1] = atr[i]*(period-1)/period + true_range[i+1]/period`
holds with `true_range[i+1] = max(high-low, |high-close_prev|,
|low-close_prev|)`; and the result differs from a simple rolling mean of
true range (concretely at lookback-2 over the three-bar series). -/
theorem c7_amended_atr_recurrence (period : ℕ) (bars : List RawBar) (i : ℕ)
    (b p : RawBar) (a : ℚ)
    (hb : bars.get? (i + 1) = some b) (hp : bars.get? i = some p)
    (ha : atr period bars i = some a) :
    true_range bars (i + 1) =
      some (max (b.high - b.low)
        (max (pyabs (b.high - p.close)) (pyabs (b.low - p.close)))) ∧
    atr period bars (i + 1) =
      some (a * ((period : ℚ) - 1) / period +
        (max (b.high - b.low)
          (max (pyabs (b.high - p.close)) (pyabs (b.low - p.close)))) / period) ∧
    (∀ b0, bars.get? 0 = some b0 → atr period bars 0 = some (b0.high - b0.low)) ∧
    atr 2 c6Bars 2 ≠ simpleRollingMeanTR 2 c6Bars 2 := by
  have e1 : true_range bars (i + 1) =
      (match bars.get? (i + 1), bars.get? i with
       | some bb, some pp =>
         some (max (bb.high - bb.low)
           (max (pyabs (bb.high - pp.close)) (pyabs (bb.low - pp.close))))
       | _, _ => none) := rfl
  have htr : true_range bars (i + 1) =
      some (max (b.high - b.low)
        (max (pyabs (b.high - p.close)) (pyabs (b.low - p.close)))) := by
    rw [e1, hb, hp]
  refine ⟨htr, ?_, ?_, ?_⟩
  · have e2 : atr period bars (i + 1) =
        (match atr period bars i, true_range bars (i + 1) with
         | some aa, some tt => some (aa * ((period : ℚ) - 1) / period + tt / period)
         | _, _ => none) := rfl
    rw [e2, ha, htr]
  · intro b0 hb0
    have e3 : atr period bars 0 =
        (match bars.get? 0 with
         | none => none
         | some bb => some (bb.high - bb.low)) := rfl
    rw [e3, hb0]
  · norm_num [atr, true_range, simpleRollingMeanTR, c6Bars, pyabs, max_def,
      List.range_succ, List.range_zero]

/-- Witness for the amended C7 at bar 1 of the three-bar series with
period 2: the seed is 5 and the recurrence produces 11/2. -/
theorem c7_amended_atr_recurrence_witness :
    true_range c6Bars 1 =
      some (max ((RawBar.mk 2 7 1 3).high - (RawBar.mk 2 7 1 3).low)
        (max (pyabs ((RawBar.mk 2 7 1 3).high - (RawBar.mk 1 5 0 2).close))
          (pyabs ((RawBar.mk 2 7 1 3).low - (RawBar.mk 1 5 0 2).close)))) ∧
    atr 2 c6Bars 1 =
      some (5 * ((2 : ℚ) - 1) / 2 +
        (max ((RawBar.mk 2 7 1 3).high - (RawBar.mk 2 7 1 3).low)
          (max (pyabs ((RawBar.mk 2 7 1 3).high - (RawBar.mk 1 5 0 2).close))
            (pyabs ((RawBar.mk 2 7 1 3).low - (RawBar.mk 1 5 0 2).close)))) / 2) ∧
    (∀ b0, c6Bars.get? 0 = some b0 → atr 2 c6Bars 0 = some (b0.high - b0.low)) ∧
    atr 2 c6Bars 2 ≠ simpleRollingMeanTR 2 c6Bars 2 :=
  c7_amended_atr_recurrence 2 c6Bars 0 (RawBar.mk 2 7 1 3) (RawBar.mk 1 5 0 2) 5
    rfl rfl (by norm_num [atr, true_range, c6Bars])

lemma pyabs_of_pos {x : ℚ} (h : 0 < x) : pyabs x = x := by
  rw [pyabs, if_neg (not_lt.mpr h.le)]

/-- C8: every close updates equity by exactly `realized_pnl` minus the exit
commission `exit_notional * commission_rate` (first conjunct, for any state);
consequently a round trip at one positive price — open long then immediately
close at the same price — appends two records whose realized PnL is zero on
the exit, whose net PnL sums to exactly minus the two commissions, and which
leave equity lower by that strictly positive amount. -/
theorem c8_close_equity_equation_and_round_trip (P : Params) (st : EngineState)
    (price : ℚ) (da ra db rb : String) (i1 i2 : ℕ) :
    (∃ rec, (log_trade P st TradeAction.CLOSE price da ra i1).trade_log =
        st.trade_log ++ [rec] ∧
      rec.commission = pyabs st.position_size * price * P.commission_rate ∧
      rec.pnl = (if 0 < st.position_size then
          (price - st.position_avg_price) * st.position_size
        else (st.position_avg_price - price) * pyabs st.position_size) ∧
      (log_trade P st TradeAction.CLOSE price da ra i1).equity =
        st.equity + rec.pnl - rec.commission) ∧
    (st.position_size = 0 → 0 < price → 0 < P.commission_rate → 0 < P.qty_value →
      0 < st.equity →
      ∃ rec1 rec2,
        (log_trade P (log_trade P st TradeAction.LONG price da ra i1)
            TradeAction.CLOSE price db rb i2).trade_log =
          st.trade_log ++ [rec1, rec2] ∧
        rec2.pnl = 0 ∧
        rec1.net_pnl + rec2.net_pnl = -(rec1.commission + rec2.commission) ∧
        (log_trade P (log_trade P st TradeAction.LONG price da ra i1)
            TradeAction.CLOSE price db rb i2).equity =
          st.equity - (rec1.commission + rec2.commission) ∧
        0 < rec1.commission + rec2.commission) := by
  constructor
  · refine ⟨closeRecord P st price da ra i1, by rw [log_trade_close_eq], rfl, rfl, ?_⟩
    rw [log_trade_close_eq]
    simp only [closeRecord]
    ring
  · intro _hflat hp hc hq he
    have hsize : 0 < calculate_position_size_value P st price :=
      div_pos (mul_pos he (div_pos hq (by norm_num))) hp
    have hpos1 : 0 < (log_trade P st TradeAction.LONG price da ra i1).position_size := by
      rw [log_trade_long_eq]
      simpa [entryRecord] using hsize
    have havg1 : (log_trade P st TradeAction.LONG price da ra i1).position_avg_price =
        price := by rw [log_trade_long_eq]
    have heq1 : (log_trade P st TradeAction.LONG price da ra i1).equity =
        st.equity - (entryRecord P st TradeAction.LONG price da ra i1).commission := by
      rw [log_trade_long_eq]
      rfl
    have hlog1 : (log_trade P st TradeAction.LONG price da ra i1).trade_log =
        st.trade_log ++ [entryRecord P st TradeAction.LONG price da ra i1] := by
      rw [log_trade_long_eq]
    have hpnl2 : (closeRecord P (log_trade P st TradeAction.LONG price da ra i1)
        price db rb i2).pnl = 0 := by
      simp only [closeRecord]
      rw [if_pos hpos1, havg1]
      ring
    refine ⟨entryRecord P st TradeAction.LONG price da ra i1,
      closeRecord P (log_trade P st TradeAction.LONG price da ra i1) price db rb i2,
      ?_, hpnl2, ?_, ?_, ?_⟩
    · rw [log_trade_close_eq, hlog1, List.append_assoc]
      rfl
    · have hnet2 : (closeRecord P (log_trade P st TradeAction.LONG price da ra i1)
          price db rb i2).net_pnl =
          (closeRecord P (log_trade P st TradeAction.LONG price da ra i1)
            price db rb i2).pnl -
          (closeRecord P (log_trade P st TradeAction.LONG price da ra i1)
            price db rb i2).commission := rfl
      have hnet1 : (entryRecord P st TradeAction.LONG price da ra i1).net_pnl =
          -(entryRecord P st TradeAction.LONG price da ra i1).commission := rfl
      rw [hnet1, hnet2, hpnl2]
      ring
    · have hfin : (log_trade P (log_trade P st TradeAction.LONG price da ra i1)
          TradeAction.CLOSE price db rb i2).equity =
          (log_trade P st TradeAction.LONG price da ra i1).equity +
            ((closeRecord P (log_trade P st TradeAction.LONG price da ra i1)
                price db rb i2).pnl -
             (closeRecord P (log_trade P st TradeAction.LONG price da ra i1)
                price db rb i2).commission) := by
        rw [log_trade_close_eq]
        rfl
      rw [hfin, hpnl2, heq1]
      ring
    · have hc2 : (closeRecord P (log_trade P st TradeAction.LONG price da ra i1)
          price db rb i2).commission =
          (log_trade P st TradeAction.LONG price da ra i1).position_size * price *
            P.commission_rate := by
        simp only [closeRecord]
        rw [pyabs_of_pos hpos1]
      have hc1 : (entryRecord P st TradeAction.LONG price da ra i1).commission =
          calculate_position_size_value P st price * price * P.commission_rate := rfl
      rw [hc1, hc2]
      exact add_pos (mul_pos (mul_pos hsize hp) hc)
        (mul_pos (mul_pos hpos1 hp) hc)

/-- Witness for C8 at the initial state with price 100 under the default
parameters. -/
theorem c8_close_equity_equation_and_round_trip_witness :
    (∃ rec, (log_trade defaultParams (initState defaultParams) TradeAction.CLOSE 100
        "d1" "r1" 0).trade_log = (initState defaultParams).trade_log ++ [rec] ∧
      rec.commission = pyabs (initState defaultParams).position_size * 100 *
        defaultParams.commission_rate ∧
      rec.pnl = (if 0 < (initState defaultParams).position_size then
          (100 - (initState defaultParams).position_avg_price) *
            (initState defaultParams).position_size
        else ((initState defaultParams).position_avg_price - 100) *
            pyabs (initState defaultParams).position_size) ∧
      (log_trade defaultParams (initState defaultParams) TradeAction.CLOSE 100
        "d1" "r1" 0).equity =
        (initState defaultParams).equity + rec.pnl - rec.commission) ∧
    (∃ rec1 rec2,
      (log_trade defaultParams
          (log_trade defaultParams (initState defaultParams) TradeAction.LONG 100
            "d1" "r1" 0) TradeAction.CLOSE 100 "d2" "r2" 1).trade_log =
        (initState defaultParams).trade_log ++ [rec1, rec2] ∧
      rec2.pnl = 0 ∧
      rec1.net_pnl + rec2.net_pnl = -(rec1.commission + rec2.commission) ∧
      (log_trade defaultParams
          (log_trade defaultParams (initState defaultParams) TradeAction.LONG 100
            "d1" "r1" 0) TradeAction.CLOSE 100 "d2" "r2" 1).equity =
        (initState defaultParams).equity - (rec1.commission + rec2.commission) ∧
      0 < rec1.commission + rec2.commission) :=
  ⟨(c8_close_equity_equation_and_round_trip defaultParams (initState defaultParams)
      100 "d1" "r1" "d2" "r2" 0 1).1,
   (c8_close_equity_equation_and_round_trip defaultParams (initState defaultParams)
      100 "d1" "r1" "d2" "r2" 0 1).2 rfl (by norm_num)
     (by norm_num [defaultParams]) (by norm_num [defaultParams])
     (by norm_num [initState, defaultParams])⟩

/-- C9: `calculate_position_size_value` performs no price validation.  At
the negative execution price -1 with the default parameters and initial
equity it returns the finite negative size -99000 (no invalid-price
failure), and `log_trade` silently records the entry with that size and
sets `position_size` to -99000.  This evaluates the code at the failing
input of the claim: the code never fails explicitly on a non-positive
price. -/
theorem c9_negative_price_sizing_is_silent :
    calculate_position_size_value defaultParams (initState defaultParams) (-1) =
      -99000 ∧
    (log_trade defaultParams (initState defaultParams) TradeAction.LONG (-1)
      "d" "r" 0).position_size = -99000 ∧
    ((log_trade defaultParams (initState defaultParams) TradeAction.LONG (-1)
      "d" "r" 0).trade_log.map
        (fun rec => (rec.action, rec.execution_price, rec.position_size))) =
      [(ActionLabel.LONG, -1, -99000)] := by
  norm_num [calculate_position_size_value, log_trade, entryRecord, initState,
    defaultParams, long_ne_close]

/-- The states reachable from the initial state through the engine's ledger
operations — entries (long or short, also as the second half of a reversal),
and closes (reversal close, stop-loss close, forced final close) — under the
claim's side conditions: every execution price is positive and equity is
positive when an entry is sized. -/
inductive ReachableState (P : Params) : EngineState → Prop
  | init : ReachableState P (initState P)
  | entry_long (st : EngineState) (price : ℚ) (d r : String) (i : ℕ) :
      ReachableState P st → 0 < price → 0 < st.equity →
      ReachableState P (log_trade P st TradeAction.LONG price d r i)
  | entry_short (st : EngineState) (price : ℚ) (d r : String) (i : ℕ) :
      ReachableState P st → 0 < price → 0 < st.equity →
      ReachableState P (log_trade P st TradeAction.SHORT price d r i)
  | close (st : EngineState) (price : ℚ) (d r : String) (i : ℕ) :
      ReachableState P st → 0 < price →
      ReachableState P (log_trade P st TradeAction.CLOSE price d r i)

/-- C10: in every state reachable from the initial state through the
engine's operations, with all execution prices positive and equity positive
at entries (and a positive qty percentage), `position_size = 0` if and only
if `position_avg_price = 0`: every close resets both together and every
entry sets both to nonzero values together. -/
theorem c10_position_size_avg_price_zero_iff (P : Params) (st : EngineState)
    (hq : 0 < P.qty_value) (h : ReachableState P st) :
    st.position_size = 0 ↔ st.position_avg_price = 0 := by
  induction h with
  | init => simp [initState]
  | entry_long st price d r i _hr hp he _ih =>
    rw [log_trade_long_eq]
    have hsize : 0 < (entryRecord P st TradeAction.LONG price d r i).position_size := by
      simpa [entryRecord] using
        div_pos (mul_pos he (div_pos hq (by norm_num))) hp
    exact iff_of_false (ne_of_gt hsize) (ne_of_gt hp)
  | entry_short st price d r i _hr hp he _ih =>
    rw [log_trade_short_eq]
    have hsize : 0 < (entryRecord P st TradeAction.SHORT price d r i).position_size := by
      simpa [entryRecord] using
        div_pos (mul_pos he (div_pos hq (by norm_num))) hp
    exact iff_of_false (neg_ne_zero.mpr (ne_of_gt hsize)) (ne_of_gt hp)
  | close st price d r i _hr _hp _ih =>
    rw [log_trade_close_eq]

/-- Witness for C10 on a concrete reachable state: enter long at 100, get
stopped out at 95, re-enter short at 90 — the invariant holds there. -/
theorem c10_position_size_avg_price_zero_iff_witness :
    (log_trade defaultParams
      (log_trade defaultParams
        (log_trade defaultParams (initState defaultParams) TradeAction.LONG 100
          "d1" "Long Entry" 0) TradeAction.CLOSE 95 "d2" "SL Long" 1)
      TradeAction.SHORT 90 "d3" "Short Entry" 2).position_size = 0 ↔
    (log_trade defaultParams
      (log_trade defaultParams
        (log_trade defaultParams (initState defaultParams) TradeAction.LONG 100
          "d1" "Long Entry" 0) TradeAction.CLOSE 95 "d2" "SL Long" 1)
      TradeAction.SHORT 90 "d3" "Short Entry" 2).position_avg_price = 0 :=
  c10_position_size_avg_price_zero_iff defaultParams _
    (by norm_num [defaultParams])
    (ReachableState.entry_short _ 90 "d3" "Short Entry" 2
      (ReachableState.close _ 95 "d2" "SL Long" 1
        (ReachableState.entry_long _ 100 "d1" "Long Entry" 0
          ReachableState.init (by norm_num)
          (by norm_num [initState, defaultParams]))
        (by norm_num))
      (by norm_num)
      (by norm_num [log_trade_close_eq, log_trade_long_eq, closeRecord, entryRecord,
        initState, defaultParams, calculate_position_size_value, pyabs]))
